import Mathlib

/-!
Shallow embedding of the gesture-detection and cooldown engine of the
EmotionAnalyzer repository (the Streamlit webcam loop: MediaPipe landmark
frames, the `GESTURES` predicate table, and the `last_detected` /
`last_detect_time` cooldown state).

Landmarks are modelled as lists of rational 3-D points; a gesture predicate
that raises in the source (e.g. an index out of range) is modelled as
returning `none`, matching the per-gesture `try/except` of the loop.
-/

/-- One MediaPipe landmark: normalized coordinates, as produced per point. -/
structure Point where
  x : ℚ
  y : ℚ
  z : ℚ
deriving DecidableEq, Repr

/-- A landmark frame: the ordered landmark array of one detected face. -/
abbrev Frame := List Point

/-- `lm[159].y - lm[65].y > 0.06`. -/
def raised_left_eyebrow (lm : Frame) : Option Bool :=
  (lm.get? 159).bind fun a => (lm.get? 65).bind fun b =>
    some (decide (a.y - b.y > 0.06))

/-- `lm[386].y - lm[295].y > 0.06`. -/
def raised_right_eyebrow (lm : Frame) : Option Bool :=
  (lm.get? 386).bind fun a => (lm.get? 295).bind fun b =>
    some (decide (a.y - b.y > 0.06))

/-- `abs(lm[13].y - lm[14].y) > 0.05`. -/
def mouth_open (lm : Frame) : Option Bool :=
  (lm.get? 13).bind fun a => (lm.get? 14).bind fun b =>
    some (decide (|a.y - b.y| > 0.05))

/-- `abs(lm[61].x - lm[291].x) < 0.035`. -/
def frown (lm : Frame) : Option Bool :=
  (lm.get? 61).bind fun a => (lm.get? 291).bind fun b =>
    some (decide (|a.x - b.x| < 0.035))

/-- `abs(lm[61].x - lm[291].x) < 0.025`. -/
def pursed_lips (lm : Frame) : Option Bool :=
  (lm.get? 61).bind fun a => (lm.get? 291).bind fun b =>
    some (decide (|a.x - b.x| < 0.025))

/-- `lm[61].y > lm[291].y + 0.015`. -/
def smirk_left (lm : Frame) : Option Bool :=
  (lm.get? 61).bind fun a => (lm.get? 291).bind fun b =>
    some (decide (a.y > b.y + 0.015))

/-- `lm[291].y > lm[61].y + 0.015`. -/
def smirk_right (lm : Frame) : Option Bool :=
  (lm.get? 61).bind fun a => (lm.get? 291).bind fun b =>
    some (decide (b.y > a.y + 0.015))

/-- `abs(lm[50].x - lm[280].x) > 0.25`. -/
def cheek_puff (lm : Frame) : Option Bool :=
  (lm.get? 50).bind fun a => (lm.get? 280).bind fun b =>
    some (decide (|a.x - b.x| > 0.25))

/-- `abs(lm[94].x - lm[331].x) > 0.05`. -/
def nostril_flare (lm : Frame) : Option Bool :=
  (lm.get? 94).bind fun a => (lm.get? 331).bind fun b =>
    some (decide (|a.x - b.x| > 0.05))

/-- `abs(lm[13].y - lm[14].y) < 0.008 and abs(lm[61].x - lm[291].x) < 0.01`. -/
def lip_bite (lm : Frame) : Option Bool :=
  (lm.get? 13).bind fun a => (lm.get? 14).bind fun b =>
    (lm.get? 61).bind fun c => (lm.get? 291).bind fun d =>
      some (decide (|a.y - b.y| < 0.008) && decide (|c.x - d.x| < 0.01))

/-- `abs(lm[65].x - lm[295].x) < 0.03`. -/
def brow_furrow (lm : Frame) : Option Bool :=
  (lm.get? 65).bind fun a => (lm.get? 295).bind fun b =>
    some (decide (|a.x - b.x| < 0.03))

/-- `(lm[65].y + lm[295].y) / 2 < lm[10].y - 0.03`. -/
def brow_lift (lm : Frame) : Option Bool :=
  (lm.get? 65).bind fun a => (lm.get? 295).bind fun b =>
    (lm.get? 10).bind fun c =>
      some (decide ((a.y + b.y) / 2 < c.y - 0.03))

/-- `lm[468].y < lm[474].y - 0.02`. -/
def eye_roll_up (lm : Frame) : Option Bool :=
  (lm.get? 468).bind fun a => (lm.get? 474).bind fun b =>
    some (decide (a.y < b.y - 0.02))

/-- `lm[468].y > lm[474].y + 0.02`. -/
def eye_roll_down (lm : Frame) : Option Bool :=
  (lm.get? 468).bind fun a => (lm.get? 474).bind fun b =>
    some (decide (a.y > b.y + 0.02))

/-- `lm[152].z < -0.1`. -/
def chin_thrust_forward (lm : Frame) : Option Bool :=
  (lm.get? 152).bind fun a =>
    some (decide (a.z < -0.1))

/-- `lm[152].z > 0.1`. -/
def chin_tuck (lm : Frame) : Option Bool :=
  (lm.get? 152).bind fun a =>
    some (decide (a.z > 0.1))

/-- `abs(lm[159].y - lm[145].y) < 0.005`. -/
def eye_blink_left (lm : Frame) : Option Bool :=
  (lm.get? 159).bind fun a => (lm.get? 145).bind fun b =>
    some (decide (|a.y - b.y| < 0.005))

/-- `abs(lm[386].y - lm[374].y) < 0.005`. -/
def eye_blink_right (lm : Frame) : Option Bool :=
  (lm.get? 386).bind fun a => (lm.get? 374).bind fun b =>
    some (decide (|a.y - b.y| < 0.005))

/-- `abs(lm[159].y - lm[145].y) > 0.035`. -/
def eyes_wide_open (lm : Frame) : Option Bool :=
  (lm.get? 159).bind fun a => (lm.get? 145).bind fun b =>
    some (decide (|a.y - b.y| > 0.035))

/-- `lm[33].x - lm[133].x > 0.02`. -/
def glare_left (lm : Frame) : Option Bool :=
  (lm.get? 33).bind fun a => (lm.get? 133).bind fun b =>
    some (decide (a.x - b.x > 0.02))

/-- `lm[263].x - lm[362].x > 0.02`. -/
def glare_right (lm : Frame) : Option Bool :=
  (lm.get? 263).bind fun a => (lm.get? 362).bind fun b =>
    some (decide (a.x - b.x > 0.02))

/-- `(lm[159].y + lm[386].y)/2 < (lm[145].y + lm[374].y)/2 - 0.02`. -/
def glare_up (lm : Frame) : Option Bool :=
  (lm.get? 159).bind fun a => (lm.get? 386).bind fun b =>
    (lm.get? 145).bind fun c => (lm.get? 374).bind fun d =>
      some (decide ((a.y + b.y) / 2 < (c.y + d.y) / 2 - 0.02))

/-- `(lm[159].y + lm[386].y)/2 > (lm[145].y + lm[374].y)/2 + 0.02`. -/
def glare_down (lm : Frame) : Option Bool :=
  (lm.get? 159).bind fun a => (lm.get? 386).bind fun b =>
    (lm.get? 145).bind fun c => (lm.get? 374).bind fun d =>
      some (decide ((a.y + b.y) / 2 > (c.y + d.y) / 2 + 0.02))

/-- `(lm[159].y - lm[65].y) > 0.03 and abs(lm[13].y - lm[14].y) > 0.04`. -/
def brows_raised_and_mouth_open (lm : Frame) : Option Bool :=
  (lm.get? 159).bind fun a => (lm.get? 65).bind fun b =>
    (lm.get? 13).bind fun c => (lm.get? 14).bind fun d =>
      some (decide (a.y - b.y > 0.03) && decide (|c.y - d.y| > 0.04))

/-- `(lm[159].y - lm[65].y) < 0.01 and abs(lm[13].y - lm[14].y) < 0.01`. -/
def brows_lowered_and_lips_pressed (lm : Frame) : Option Bool :=
  (lm.get? 159).bind fun a => (lm.get? 65).bind fun b =>
    (lm.get? 13).bind fun c => (lm.get? 14).bind fun d =>
      some (decide (a.y - b.y < 0.01) && decide (|c.y - d.y| < 0.01))

/-- `abs(lm[159].y - lm[145].y) < 0.007`. -/
def eye_squint_left (lm : Frame) : Option Bool :=
  (lm.get? 159).bind fun a => (lm.get? 145).bind fun b =>
    some (decide (|a.y - b.y| < 0.007))

/-- `abs(lm[386].y - lm[374].y) < 0.007`. -/
def eye_squint_right (lm : Frame) : Option Bool :=
  (lm.get? 386).bind fun a => (lm.get? 374).bind fun b =>
    some (decide (|a.y - b.y| < 0.007))

/-- `abs(lm[152].y - lm[13].y) > 0.15`. -/
def jaw_drop (lm : Frame) : Option Bool :=
  (lm.get? 152).bind fun a => (lm.get? 13).bind fun b =>
    some (decide (|a.y - b.y| > 0.15))

/-- `lm[234].y - lm[454].y > 0.03`. -/
def head_tilt_left (lm : Frame) : Option Bool :=
  (lm.get? 234).bind fun a => (lm.get? 454).bind fun b =>
    some (decide (a.y - b.y > 0.03))

/-- `lm[454].y - lm[234].y > 0.03`. -/
def head_tilt_right (lm : Frame) : Option Bool :=
  (lm.get? 234).bind fun a => (lm.get? 454).bind fun b =>
    some (decide (b.y - a.y > 0.03))

/-- `lm[454].x < lm[234].x - 0.05`. -/
def head_turn_right (lm : Frame) : Option Bool :=
  (lm.get? 454).bind fun a => (lm.get? 234).bind fun b =>
    some (decide (a.x < b.x - 0.05))

/-- `lm[10].y > lm[152].y + 0.08`. -/
def head_turn_down (lm : Frame) : Option Bool :=
  (lm.get? 10).bind fun a => (lm.get? 152).bind fun b =>
    some (decide (a.y > b.y + 0.08))

/-- `abs(lm[6].y - lm[168].y) < 0.02`. -/
def nose_wrinkle (lm : Frame) : Option Bool :=
  (lm.get? 6).bind fun a => (lm.get? 168).bind fun b =>
    some (decide (|a.y - b.y| < 0.02))

/-- `(lm[159].y - lm[65].y) > 0.1 and abs(lm[61].x - lm[291].x) > 0.08`. -/
def brow_raise_smile (lm : Frame) : Option Bool :=
  (lm.get? 159).bind fun a => (lm.get? 65).bind fun b =>
    (lm.get? 61).bind fun c => (lm.get? 291).bind fun d =>
      some (decide (a.y - b.y > 0.1) && decide (|c.x - d.x| > 0.08))

/-- `abs(lm[65].x - lm[295].x) < 0.03 and abs(lm[61].x - lm[291].x) < 0.035`. -/
def brow_furrow_frown (lm : Frame) : Option Bool :=
  (lm.get? 65).bind fun a => (lm.get? 295).bind fun b =>
    (lm.get? 61).bind fun c => (lm.get? 291).bind fun d =>
      some (decide (|a.x - b.x| < 0.03) && decide (|c.x - d.x| < 0.035))

/-- `abs(lm[13].y - lm[14].y) > 0.04 and abs(lm[234].y - lm[454].y) > 0.03`. -/
def mouth_open_head_tilt (lm : Frame) : Option Bool :=
  (lm.get? 13).bind fun a => (lm.get? 14).bind fun b =>
    (lm.get? 234).bind fun c => (lm.get? 454).bind fun d =>
      some (decide (|a.y - b.y| > 0.04) && decide (|c.y - d.y| > 0.03))

/-- The `GESTURES` table: name and predicate, in source order. -/
def GESTURES : List (String × (Frame → Option Bool)) :=
  [("raised left eyebrow", raised_left_eyebrow),
   ("raised right eyebrow", raised_right_eyebrow),
   ("mouth open", mouth_open),
   ("frown", frown),
   ("pursed lips", pursed_lips),
   ("smirk left", smirk_left),
   ("smirk right", smirk_right),
   ("cheek puff", cheek_puff),
   ("nostril flare", nostril_flare),
   ("lip bite", lip_bite),
   ("brow furrow", brow_furrow),
   ("brow lift", brow_lift),
   ("eye roll up", eye_roll_up),
   ("eye roll down", eye_roll_down),
   ("chin thrust forward", chin_thrust_forward),
   ("chin tuck", chin_tuck),
   ("eye blink left", eye_blink_left),
   ("eye blink right", eye_blink_right),
   ("eyes wide open", eyes_wide_open),
   ("glare left", glare_left),
   ("glare right", glare_right),
   ("glare up", glare_up),
   ("glare down", glare_down),
   ("brows raised and mouth open", brows_raised_and_mouth_open),
   ("brows lowered and lips pressed", brows_lowered_and_lips_pressed),
   ("eye squint left", eye_squint_left),
   ("eye squint right", eye_squint_right),
   ("jaw drop", jaw_drop),
   ("head tilt left", head_tilt_left),
   ("head tilt right", head_tilt_right),
   ("head turn right", head_turn_right),
   ("head turn down", head_turn_down),
   ("nose wrinkle", nose_wrinkle),
   ("brow raise + smile", brow_raise_smile),
   ("brow furrow + frown", brow_furrow_frown),
   ("mouth open + head tilt", mouth_open_head_tilt)]

/-- `cooldown_seconds = 5` (live single-frame mode). -/
def cooldown_seconds : ℚ := 5

/-- The session-scoped mutable state of the loop: the `last_detected` set and
the `last_detect_time` map, modelled as membership / lookup functions. -/
structure TrackerState where
  last_detected : String → Bool
  last_detect_time : String → Option ℚ

/-- Session start: `last_detected = set()` and `last_detect_time = {}`. -/
def initState : TrackerState :=
  ⟨fun _ => false, fun _ => none⟩

/-- The cooldown test of the loop:
`name not in last_detected or (current_time - last_detect_time.get(name, 0)) > cooldown_seconds`. -/
def cooldownOK (t : ℚ) (st : TrackerState) (n : String) : Bool :=
  !st.last_detected n || decide (t - (st.last_detect_time n).getD 0 > cooldown_seconds)

/-- One iteration of the inner `for name, condition in GESTURES` loop body:
on `condition(landmarks)` raising (`none`) or returning `False` the
accumulator is unchanged; on `True` with the cooldown test passing, the name
is appended to `detected_now`, added to `last_detected`, and its
`last_detect_time` entry is set to `current_time`. -/
def processGesture (t : ℚ) (lm : Frame) (acc : TrackerState × List String)
    (g : String × (Frame → Option Bool)) : TrackerState × List String :=
  match g.2 lm with
  | some true =>
      if cooldownOK t acc.1 g.1 then
        (⟨fun n => n == g.1 || acc.1.last_detected n,
          fun n => if n == g.1 then some t else acc.1.last_detect_time n⟩,
         acc.2 ++ [g.1])
      else acc
  | _ => acc

/-- The full `GESTURES` loop over one face's landmarks. -/
def processFace (t : ℚ) (acc : TrackerState × List String) (lm : Frame) :
    TrackerState × List String :=
  GESTURES.foldl (processGesture t lm) acc

/-- One frame of the webcam loop: `detected_now = []`, then the
`for face_landmarks in results.multi_face_landmarks` loop, each face feeding
the same `detected_now` list and the same tracker state. -/
def processFrame (t : ℚ) (faces : List Frame) (st : TrackerState) :
    TrackerState × List String :=
  faces.foldl (processFace t) (st, [])

/-- A session: frames processed in order, each with its capture time and the
faces found on it; returns the final state and the per-frame
`detected_now` lists. -/
def runFrames : TrackerState → List (ℚ × List Frame) → TrackerState × List (List String)
  | st, [] => (st, [])
  | st, p :: rest =>
      let r := processFrame p.1 p.2 st
      let rr := runFrames r.1 rest
      (rr.1, r.2 :: rr.2)

/-- The detected/fired flags and last-fired entry of one gesture name. -/
def keyState (st : TrackerState) (n : String) : Bool × Option ℚ :=
  (st.last_detected n, st.last_detect_time n)

/-- Some rule of the table carrying this name is true on the frame. -/
def trigger (gs : List (String × (Frame → Option Bool))) (lm : Frame) (n : String) : Prop :=
  ∃ c, (n, c) ∈ gs ∧ c lm = some true

section StepLemmas

variable (t : ℚ) (lm : Frame)

theorem processGesture_not_true {g : String × (Frame → Option Bool)}
    (acc : TrackerState × List String) (h : g.2 lm ≠ some true) :
    processGesture t lm acc g = acc := by
  unfold processGesture
  match hg : g.2 lm with
  | none => rfl
  | some false => rfl
  | some true => exact absurd hg h

theorem processGesture_blocked {g : String × (Frame → Option Bool)}
    (acc : TrackerState × List String) (h : cooldownOK t acc.1 g.1 = false) :
    processGesture t lm acc g = acc := by
  unfold processGesture
  match hg : g.2 lm with
  | none => rfl
  | some false => rfl
  | some true => simp [h]

theorem processGesture_fire {g : String × (Frame → Option Bool)}
    (acc : TrackerState × List String) (hg : g.2 lm = some true)
    (h : cooldownOK t acc.1 g.1 = true) :
    processGesture t lm acc g =
      (⟨fun n => n == g.1 || acc.1.last_detected n,
        fun n => if n == g.1 then some t else acc.1.last_detect_time n⟩,
       acc.2 ++ [g.1]) := by
  unfold processGesture
  rw [hg]
  simp [h]

theorem processGesture_fst_indep (g : String × (Frame → Option Bool))
    (st : TrackerState) (ds : List String) :
    processGesture t lm (st, ds) g =
      ((processGesture t lm (st, []) g).1,
       ds ++ (processGesture t lm (st, []) g).2) := by
  unfold processGesture
  match hg : g.2 lm with
  | none => simp
  | some false => simp
  | some true =>
    by_cases h : cooldownOK t st g.1
    · simp [h]
    · simp [eq_false_intro h]

theorem foldl_gesture_append (gs : List (String × (Frame → Option Bool))) :
    ∀ (st : TrackerState) (ds : List String),
      gs.foldl (processGesture t lm) (st, ds) =
        ((gs.foldl (processGesture t lm) (st, [])).1,
         ds ++ (gs.foldl (processGesture t lm) (st, [])).2) := by
  induction gs with
  | nil => intro st ds; simp
  | cons g gs ih =>
    intro st ds
    simp only [List.foldl_cons]
    rw [processGesture_fst_indep t lm g st ds]
    rcases hpg : processGesture t lm (st, []) g with ⟨st', d₀⟩
    rw [ih st' (ds ++ d₀), ih st' d₀]
    simp [List.append_assoc]

end StepLemmas

theorem trigger_nil (lm : Frame) (n : String) : ¬ trigger [] lm n := by
  rintro ⟨c, hc, -⟩
  simp at hc

theorem trigger_cons {g : String × (Frame → Option Bool)}
    {gs : List (String × (Frame → Option Bool))} {lm : Frame} {n : String} :
    trigger (g :: gs) lm n ↔ (n = g.1 ∧ g.2 lm = some true) ∨ trigger gs lm n := by
  constructor
  · rintro ⟨c, hmem, hc⟩
    rcases List.mem_cons.mp hmem with h | h
    · rcases g with ⟨gn, gc⟩
      injection h with h1 h2
      exact Or.inl ⟨h1, h2 ▸ hc⟩
    · exact Or.inr ⟨c, h, hc⟩
  · rintro (⟨h1, h2⟩ | ⟨c, hmem, hc⟩)
    · exact ⟨g.2, by simp [h1], h2⟩
    · exact ⟨c, List.mem_cons_of_mem _ hmem, hc⟩

theorem cooldownOK_congr {st st' : TrackerState} {n : String} (t : ℚ)
    (h : keyState st n = keyState st' n) :
    cooldownOK t st n = cooldownOK t st' n := by
  unfold cooldownOK
  unfold keyState at h
  injection h with h1 h2
  rw [h1, h2]

theorem processGesture_key_other {g : String × (Frame → Option Bool)} (t : ℚ)
    (lm : Frame) (acc : TrackerState × List String) {n : String} (hn : n ≠ g.1) :
    keyState (processGesture t lm acc g).1 n = keyState acc.1 n ∧
      (n ∈ (processGesture t lm acc g).2 ↔ n ∈ acc.2) := by
  unfold processGesture
  match hg : g.2 lm with
  | none => exact ⟨rfl, Iff.rfl⟩
  | some false => exact ⟨rfl, Iff.rfl⟩
  | some true =>
    by_cases h : cooldownOK t acc.1 g.1
    · simp only [h, if_true]
      constructor
      · unfold keyState
        simp [beq_eq_false_iff_ne.mpr hn]
      · simp [hn]
    · simp [eq_false_intro h]


theorem cooldownOK_fired (t : ℚ) {st : TrackerState} {n : String}
    (h1 : st.last_detected n = true) (h2 : st.last_detect_time n = some t) :
    cooldownOK t st n = false := by
  unfold cooldownOK
  rw [h1, h2]
  simp only [Option.getD_some, Bool.not_true, Bool.false_or]
  rw [decide_eq_false]
  rw [sub_self]
  unfold cooldown_seconds
  norm_num

/-- Per-key characterization of one face's run of the `GESTURES` loop:
a name is appended exactly when some rule carrying it is true and the
cooldown test passes against the state at frame start; in that case the
name's detected flag and timestamp become `(true, some t)`, otherwise
they are untouched. -/
theorem foldl_gesture_char (t : ℚ) (lm : Frame) (n : String)
    (gs : List (String × (Frame → Option Bool))) :
    ∀ (st : TrackerState) (ds : List String),
      (n ∈ (gs.foldl (processGesture t lm) (st, ds)).2 ↔
        n ∈ ds ∨ (trigger gs lm n ∧ cooldownOK t st n = true)) ∧
      ((trigger gs lm n ∧ cooldownOK t st n = true →
          keyState (gs.foldl (processGesture t lm) (st, ds)).1 n = (true, some t)) ∧
        (¬(trigger gs lm n ∧ cooldownOK t st n = true) →
          keyState (gs.foldl (processGesture t lm) (st, ds)).1 n = keyState st n)) := by
  induction gs with
  | nil =>
    intro st ds
    refine ⟨?_, ?_, ?_⟩
    · simp only [List.foldl_nil]
      exact ⟨fun h => Or.inl h, fun h => h.elim id fun hh => absurd hh.1 (trigger_nil lm n)⟩
    · intro h
      exact absurd h.1 (trigger_nil lm n)
    · intro _
      rfl
  | cons g gs ih =>
    intro st ds
    simp only [List.foldl_cons]
    by_cases hn : n = g.1
    · -- the head rule carries this very name
      by_cases hfire : g.2 lm = some true ∧ cooldownOK t st n = true
      · -- the head rule fires: the key becomes (true, some t) and stays there
        rw [processGesture_fire t lm (st, ds) hfire.1 (by rw [← hn]; exact hfire.2)]
        set st' : TrackerState :=
          ⟨fun m => m == g.1 || st.last_detected m,
           fun m => if m == g.1 then some t else st.last_detect_time m⟩ with hst'
        have hd' : st'.last_detected n = true := by
          simp [hst', hn]
        have ht' : st'.last_detect_time n = some t := by
          simp [hst', hn]
        have hkey' : keyState st' n = (true, some t) := by
          unfold keyState
          rw [hd', ht']
        have hok' : cooldownOK t st' n = false := cooldownOK_fired t hd' ht'
        have htrig : trigger (g :: gs) lm n :=
          trigger_cons.mpr (Or.inl ⟨hn, hfire.1⟩)
        obtain ⟨ih1, ih2, ih3⟩ := ih st' (ds ++ [g.1])
        refine ⟨?_, ?_, ?_⟩
        · rw [ih1]
          constructor
          · intro _
            exact Or.inr ⟨htrig, hfire.2⟩
          · intro _
            exact Or.inl (by simp [hn])
        · intro _
          rw [ih3 (by rw [hok']; simp), hkey']
        · intro hcon
          exact absurd ⟨htrig, hfire.2⟩ hcon
      · -- a rule with this name that does not fire leaves everything unchanged
        have hacc : processGesture t lm (st, ds) g = (st, ds) := by
          by_cases hg : g.2 lm = some true
          · have hok : cooldownOK t st n = false := by
              rcases Bool.eq_false_or_eq_true (cooldownOK t st n) with h | h
              · exact absurd ⟨hg, h⟩ hfire
              · exact h
            exact processGesture_blocked t lm (st, ds) (by rw [← hn]; exact hok)
          · exact processGesture_not_true t lm (st, ds) hg
        rw [hacc]
        obtain ⟨ih1, ih2, ih3⟩ := ih st ds
        by_cases hok : cooldownOK t st n = true
        · -- cooldown open but the head rule is false on this frame
          have hg : g.2 lm ≠ some true := fun hg => hfire ⟨hg, hok⟩
          have htr : trigger (g :: gs) lm n ↔ trigger gs lm n := by
            rw [trigger_cons]
            constructor
            · rintro (⟨-, h2⟩ | h)
              · exact absurd h2 hg
              · exact h
            · exact Or.inr
          exact ⟨by rw [ih1, htr], fun h => ih2 ⟨htr.mp h.1, h.2⟩,
            fun h => ih3 fun hh => h ⟨htr.mpr hh.1, hh.2⟩⟩
        · -- cooldown shut for this name: no rule with this name can fire
          refine ⟨?_, ?_, ?_⟩
          · rw [ih1]
            constructor
            · rintro (h | ⟨-, h2⟩)
              · exact Or.inl h
              · exact absurd h2 hok
            · rintro (h | ⟨-, h2⟩)
              · exact Or.inl h
              · exact absurd h2 hok
          · intro h
            exact absurd h.2 hok
          · intro _
            exact ih3 fun hh => hok hh.2
    · -- the head rule carries a different name: its step is invisible at key n
      obtain ⟨hkey, hout⟩ := processGesture_key_other t lm (st, ds) hn
      rcases hacc : processGesture t lm (st, ds) g with ⟨st₁, ds₁⟩
      rw [hacc] at hkey hout
      obtain ⟨ih1, ih2, ih3⟩ := ih st₁ ds₁
      have hok₁ : cooldownOK t st₁ n = cooldownOK t st n := cooldownOK_congr t hkey
      have htr : trigger (g :: gs) lm n ↔ trigger gs lm n := by
        rw [trigger_cons]
        constructor
        · rintro (⟨h1, -⟩ | h)
          · exact absurd h1 hn
          · exact h
        · exact Or.inr
      refine ⟨?_, ?_, ?_⟩
      · rw [ih1, hout, hok₁, htr]
      · intro h
        rw [ih2 ⟨htr.mp h.1, hok₁.symm ▸ h.2⟩]
      · intro h
        rw [ih3 fun hh => h ⟨htr.mpr hh.1, hok₁ ▸ hh.2⟩, hkey]

theorem gestures_names_nodup : (GESTURES.map Prod.fst).Nodup := by decide

theorem mem_key_unique {gs : List (String × (Frame → Option Bool))}
    (hnd : (gs.map Prod.fst).Nodup) {n : String} {c c' : Frame → Option Bool}
    (h : (n, c) ∈ gs) (h' : (n, c') ∈ gs) : c = c' := by
  induction gs with
  | nil => simp at h
  | cons g gs ih =>
    rw [List.map_cons, List.nodup_cons] at hnd
    rcases List.mem_cons.mp h with hh | hh <;> rcases List.mem_cons.mp h' with hh' | hh'
    · exact congrArg Prod.snd (hh.trans hh'.symm)
    · have hm : (n, c').1 ∈ gs.map Prod.fst := List.mem_map_of_mem Prod.fst hh'
      rw [show n = g.1 from congrArg Prod.fst hh] at hm
      exact absurd hm hnd.1
    · have hm : (n, c).1 ∈ gs.map Prod.fst := List.mem_map_of_mem Prod.fst hh
      rw [show n = g.1 from congrArg Prod.fst hh'] at hm
      exact absurd hm hnd.1
    · exact ih hnd.2 hh hh'

theorem trigger_unique {gs : List (String × (Frame → Option Bool))}
    (hnd : (gs.map Prod.fst).Nodup) {n : String} {c : Frame → Option Bool}
    (hmem : (n, c) ∈ gs) (lm : Frame) :
    trigger gs lm n ↔ c lm = some true := by
  constructor
  · rintro ⟨c', hmem', hc'⟩
    rw [mem_key_unique hnd hmem hmem']
    exact hc'
  · intro h
    exact ⟨c, hmem, h⟩

theorem processFrame_single (t : ℚ) (lm : Frame) (st : TrackerState) :
    processFrame t [lm] st = processFace t (st, []) lm := rfl

theorem processFace_key_cases (t : ℚ) (lm : Frame) (n : String)
    (st : TrackerState) (ds : List String) :
    keyState (processFace t (st, ds) lm).1 n = keyState st n ∨
      keyState (processFace t (st, ds) lm).1 n = (true, some t) := by
  unfold processFace
  obtain ⟨-, h2, h3⟩ := foldl_gesture_char t lm n GESTURES st ds
  by_cases h : trigger GESTURES lm n ∧ cooldownOK t st n = true
  · exact Or.inr (h2 h)
  · exact Or.inl (h3 h)

theorem processFace_suppressed (t : ℚ) (lm : Frame) (n : String)
    (st : TrackerState) (ds : List String) (hok : cooldownOK t st n = false) :
    (n ∈ (processFace t (st, ds) lm).2 ↔ n ∈ ds) ∧
      keyState (processFace t (st, ds) lm).1 n = keyState st n := by
  unfold processFace
  obtain ⟨h1, -, h3⟩ := foldl_gesture_char t lm n GESTURES st ds
  constructor
  · rw [h1]
    constructor
    · rintro (h | ⟨-, h2⟩)
      · exact h
      · rw [hok] at h2
        exact absurd h2 (by simp)
    · exact Or.inl
  · exact h3 fun hh => by rw [hok] at hh; exact absurd hh.2 (by simp)

theorem processFrame_key_cases (t : ℚ) (n : String) (faces : List Frame) :
    ∀ (st : TrackerState) (ds : List String),
      keyState (faces.foldl (processFace t) (st, ds)).1 n = keyState st n ∨
        keyState (faces.foldl (processFace t) (st, ds)).1 n = (true, some t) := by
  induction faces with
  | nil => intro st ds; exact Or.inl rfl
  | cons lm faces ih =>
    intro st ds
    simp only [List.foldl_cons]
    rcases hacc : processFace t (st, ds) lm with ⟨st₁, ds₁⟩
    have hkey := processFace_key_cases t lm n st ds
    rw [hacc] at hkey
    rcases ih st₁ ds₁ with h | h <;> rcases hkey with hk | hk
    · exact Or.inl (by rw [h, hk])
    · exact Or.inr (by rw [h, hk])
    · exact Or.inr h
    · exact Or.inr h

theorem processFrame_suppressed (t : ℚ) (n : String) (faces : List Frame) :
    ∀ (st : TrackerState) (ds : List String), cooldownOK t st n = false →
      (n ∈ (faces.foldl (processFace t) (st, ds)).2 ↔ n ∈ ds) ∧
        keyState (faces.foldl (processFace t) (st, ds)).1 n = keyState st n := by
  induction faces with
  | nil => intro st ds _; exact ⟨Iff.rfl, rfl⟩
  | cons lm faces ih =>
    intro st ds hok
    simp only [List.foldl_cons]
    obtain ⟨h1, h2⟩ := processFace_suppressed t lm n st ds hok
    rcases hacc : processFace t (st, ds) lm with ⟨st₁, ds₁⟩
    rw [hacc] at h1 h2
    have hok₁ : cooldownOK t st₁ n = false := by
      rw [cooldownOK_congr t h2, hok]
    obtain ⟨ih1, ih2⟩ := ih st₁ ds₁ hok₁
    exact ⟨by rw [ih1, h1], by rw [ih2, h2]⟩

theorem keyState_fst {st st' : TrackerState} {n : String}
    (h : keyState st n = keyState st' n) :
    st.last_detected n = st'.last_detected n := congrArg Prod.fst h

theorem keyState_snd {st st' : TrackerState} {n : String}
    (h : keyState st n = keyState st' n) :
    st.last_detect_time n = st'.last_detect_time n := congrArg Prod.snd h

theorem processFrame_key_cases_frame (t : ℚ) (n : String) (faces : List Frame)
    (st : TrackerState) :
    keyState (processFrame t faces st).1 n = keyState st n ∨
      keyState (processFrame t faces st).1 n = (true, some t) := by
  unfold processFrame
  exact processFrame_key_cases t n faces st []

theorem processFrame_suppressed_frame (t : ℚ) (n : String) (faces : List Frame)
    (st : TrackerState) (hok : cooldownOK t st n = false) :
    n ∉ (processFrame t faces st).2 ∧
      keyState (processFrame t faces st).1 n = keyState st n := by
  unfold processFrame
  obtain ⟨h1, h2⟩ := processFrame_suppressed t n faces st [] hok
  exact ⟨fun hm => absurd (h1.mp hm) (List.not_mem_nil n), h2⟩

theorem runFrames_cons (st : TrackerState) (p : ℚ × List Frame)
    (rest : List (ℚ × List Frame)) :
    runFrames st (p :: rest) =
      ((runFrames (processFrame p.1 p.2 st).1 rest).1,
       (processFrame p.1 p.2 st).2 :: (runFrames (processFrame p.1 p.2 st).1 rest).2) := rfl

/-- After a firing at time τ, as long as every later frame arrives within
the cooldown window of τ, the gesture is never emitted again and its
recorded state stays exactly (fired, τ). -/
theorem run_suppressed (n : String) (seq : List (ℚ × List Frame)) :
    ∀ (st : TrackerState) (τ : ℚ),
      st.last_detected n = true → st.last_detect_time n = some τ →
      (∀ p ∈ seq, p.1 ≤ τ + cooldown_seconds) →
      (∀ out ∈ (runFrames st seq).2, n ∉ out) ∧
        keyState (runFrames st seq).1 n = (true, some τ) := by
  induction seq with
  | nil =>
    intro st τ h1 h2 _
    refine ⟨by simp [runFrames], ?_⟩
    unfold runFrames keyState
    rw [h1, h2]
  | cons p rest ih =>
    intro st τ h1 h2 hw
    have hok : cooldownOK p.1 st n = false := by
      unfold cooldownOK
      rw [h1, h2]
      simp only [Option.getD_some, Bool.not_true, Bool.false_or]
      rw [decide_eq_false]
      have hp := hw p (List.mem_cons_self p rest)
      intro hgt
      linarith
    obtain ⟨hout, hkey⟩ := processFrame_suppressed_frame p.1 n p.2 st hok
    have h1' : (processFrame p.1 p.2 st).1.last_detected n = true := by
      rw [keyState_fst hkey, h1]
    have h2' : (processFrame p.1 p.2 st).1.last_detect_time n = some τ := by
      rw [keyState_snd hkey, h2]
    obtain ⟨ihout, ihkey⟩ :=
      ih (processFrame p.1 p.2 st).1 τ h1' h2'
        (fun q hq => hw q (List.mem_cons_of_mem p hq))
    rw [runFrames_cons]
    refine ⟨?_, ihkey⟩
    intro out hmem
    rcases List.mem_cons.mp hmem with h | h
    · rw [h]
      exact hout
    · exact ihout out h

/-- Across a whole session, one gesture's recorded state is either untouched
or was last written by some processed frame, with that frame's time. -/
theorem run_key_provenance (n : String) (seq : List (ℚ × List Frame)) :
    ∀ st : TrackerState,
      keyState (runFrames st seq).1 n = keyState st n ∨
        ∃ p ∈ seq, keyState (runFrames st seq).1 n = (true, some p.1) := by
  induction seq with
  | nil => intro st; exact Or.inl rfl
  | cons p rest ih =>
    intro st
    rw [runFrames_cons]
    rcases ih (processFrame p.1 p.2 st).1 with h | ⟨q, hq, h⟩
    · rcases processFrame_key_cases_frame p.1 n p.2 st with hk | hk
      · exact Or.inl (by rw [h, hk])
      · exact Or.inr ⟨p, List.mem_cons_self p rest, by rw [h, hk]⟩
    · exact Or.inr ⟨q, List.mem_cons_of_mem p hq, h⟩

/-- A uniform 292-point frame: every landmark at the image centre. -/
def basePoint : Point := ⟨1/2, 1/2, 0⟩

def baseFrame : Frame := List.replicate 292 basePoint

/-- `baseFrame` with the lower-lip landmark moved down: "mouth open" is true. -/
def mouthFrame : Frame := baseFrame.set 14 ⟨1/2, 14/25, 0⟩

/-- A session state in which only "mouth open" has fired, at time 0. -/
def firedState : TrackerState :=
  ⟨fun n => n == "mouth open",
   fun n => if n == "mouth open" then some 0 else none⟩

/-- `baseFrame` with brow and lip gaps placed between the compound rules'
thresholds and the atomic rules' stricter thresholds. -/
def betweenFrame : Frame :=
  (baseFrame.set 159 ⟨1/2, 109/200, 0⟩).set 14 ⟨1/2, 109/200, 0⟩

/-- A uniform frame long enough for the brow-furrow indices (up to 295). -/
def wideFrame : Frame := List.replicate 296 basePoint

/-- A frame with the eyebrow raised well past 0.06 and the mouth open past
0.05, so both atomic rules of the first compound rule hold. -/
def strongFrame : Frame :=
  (baseFrame.set 159 ⟨1/2, 3/5, 0⟩).set 14 ⟨1/2, 14/25, 0⟩

/-- A 455-point frame with the mouth open and the head tilted left. -/
def tiltFrame : Frame :=
  ((List.replicate 455 basePoint).set 14 ⟨1/2, 14/25, 0⟩).set 234 ⟨1/2, 11/20, 0⟩

theorem foldl_gesture_filter (t : ℚ) (lm : Frame)
    (gs : List (String × (Frame → Option Bool))) :
    ∀ acc : TrackerState × List String,
      gs.foldl (processGesture t lm) acc =
        (gs.filter (fun g => (g.2 lm).isSome)).foldl (processGesture t lm) acc := by
  induction gs with
  | nil => intro acc; rfl
  | cons g gs ih =>
    intro acc
    by_cases h : (g.2 lm).isSome = true
    · simp only [List.filter_cons, h, if_true, List.foldl_cons]
      exact ih _
    · have hf : (g.2 lm).isSome = false := by simpa using h
      simp only [List.filter_cons, hf, Bool.false_eq_true, if_false, List.foldl_cons]
      rw [processGesture_not_true t lm acc fun he => h (by rw [he]; rfl)]
      exact ih acc

theorem foldl_face_append (t : ℚ) (faces : List Frame) :
    ∀ (st : TrackerState) (ds : List String),
      faces.foldl (processFace t) (st, ds) =
        ((faces.foldl (processFace t) (st, [])).1,
         ds ++ (faces.foldl (processFace t) (st, [])).2) := by
  induction faces with
  | nil => intro st ds; simp
  | cons lm faces ih =>
    intro st ds
    simp only [List.foldl_cons]
    have hface : processFace t (st, ds) lm =
        ((processFace t (st, []) lm).1, ds ++ (processFace t (st, []) lm).2) := by
      unfold processFace
      exact foldl_gesture_append t lm GESTURES st ds
    rw [hface]
    rcases hpf : processFace t (st, []) lm with ⟨st₁, d₀⟩
    rw [ih st₁ (ds ++ d₀), ih st₁ d₀]
    simp [List.append_assoc]

/-- C3: for every landmark frame (including frames with too few points for
some rule), running the full `GESTURES` loop is the same as running it on
just the rules whose predicate evaluates without error (`isSome`): an
erroring rule is skipped — excluded from `detected_now` and leaving the
state untouched — while every other rule is still evaluated; in the model
evaluation is total, so no exception propagates, and the caught error only
feeds the diagnostic print. -/
theorem rule_errors_skipped (t : ℚ) (lm : Frame) (st : TrackerState)
    (ds : List String) :
    GESTURES.foldl (processGesture t lm) (st, ds) =
      (GESTURES.filter (fun g => (g.2 lm).isSome)).foldl (processGesture t lm) (st, ds) :=
  foldl_gesture_filter t lm GESTURES (st, ds)

/-- C4 (amended): on a frame with several faces the loop does NOT key gesture
sets by face index: every face appends into the one shared `detected_now`
list, so the frame's output is the concatenation of the per-face
contributions, with the tracker state threaded from one face to the next. -/
theorem faces_share_single_detected_list (t : ℚ) (st : TrackerState)
    (f₁ : Frame) (rest : List Frame) :
    (processFrame t (f₁ :: rest) st).2 =
      (processFace t (st, []) f₁).2 ++
        (processFrame t rest (processFace t (st, []) f₁).1).2 := by
  unfold processFrame
  simp only [List.foldl_cons]
  rcases hpf : processFace t (st, []) f₁ with ⟨st₁, d₀⟩
  rw [foldl_face_append t rest st₁ d₀]

set_option maxRecDepth 8000 in
/-- C4 counterexample: with two faces in one frame — the first uniform (it
fires "frown" among others, not "mouth open"), the second with an open
mouth — the loop returns one combined list holding both faces' gestures,
refuting "never merged into a single combined set". -/
theorem faces_merged_cex :
    "frown" ∈ (processFrame 0 [baseFrame, mouthFrame] initState).2 ∧
      "mouth open" ∈ (processFrame 0 [baseFrame, mouthFrame] initState).2 ∧
      "mouth open" ∉ (processFrame 0 [baseFrame] initState).2 := by
  with_unfolding_all decide

/-- C8: within each pair sharing its landmark indices, the stricter rule
implies the looser one: "pursed lips" (gap < 0.025) implies "frown"
(gap < 0.035), and "eye blink left" (lid gap < 0.005) implies
"eye squint left" (lid gap < 0.007). -/
theorem stricter_implies_looser (lm : Frame) :
    (pursed_lips lm = some true → frown lm = some true) ∧
      (eye_blink_left lm = some true → eye_squint_left lm = some true) := by
  constructor
  · unfold pursed_lips frown
    cases h61 : lm.get? 61 with
    | none => simp
    | some a =>
      cases h291 : lm.get? 291 with
      | none => simp
      | some b =>
        simp only [Option.some_bind, Option.some.injEq, decide_eq_true_eq]
        intro h
        linarith
  · unfold eye_blink_left eye_squint_left
    cases h159 : lm.get? 159 with
    | none => simp
    | some a =>
      cases h145 : lm.get? 145 with
      | none => simp
      | some b =>
        simp only [Option.some_bind, Option.some.injEq, decide_eq_true_eq]
        intro h
        linarith

set_option maxRecDepth 8000 in
theorem stricter_implies_looser_witness :
    pursed_lips baseFrame = some true ∧ frown baseFrame = some true ∧
      eye_blink_left baseFrame = some true ∧ eye_squint_left baseFrame = some true :=
  ⟨by with_unfolding_all decide,
   (stricter_implies_looser baseFrame).1 (by with_unfolding_all decide),
   by with_unfolding_all decide,
   (stricter_implies_looser baseFrame).2 (by with_unfolding_all decide)⟩

/-- C9: the rule pairs smirk left/right, eye roll up/down, chin thrust/tuck
and head tilt left/right have contradictory threshold inequalities, so on
any one frame at most one member of each pair can evaluate to true. -/
theorem exclusive_pairs (lm : Frame) :
    (smirk_left lm ≠ some true ∨ smirk_right lm ≠ some true) ∧
      (eye_roll_up lm ≠ some true ∨ eye_roll_down lm ≠ some true) ∧
      (chin_thrust_forward lm ≠ some true ∨ chin_tuck lm ≠ some true) ∧
      (head_tilt_left lm ≠ some true ∨ head_tilt_right lm ≠ some true) := by
  refine ⟨?_, ?_, ?_, ?_⟩
  · unfold smirk_left smirk_right
    cases h61 : lm.get? 61 with
    | none => left; simp
    | some a =>
      cases h291 : lm.get? 291 with
      | none => left; simp
      | some b =>
        simp only [Option.some_bind, ne_eq, Option.some.injEq, decide_eq_true_eq]
        by_cases h : a.y > b.y + 0.015
        · right
          intro hc
          linarith
        · left
          exact h
  · unfold eye_roll_up eye_roll_down
    cases h468 : lm.get? 468 with
    | none => left; simp
    | some a =>
      cases h474 : lm.get? 474 with
      | none => left; simp
      | some b =>
        simp only [Option.some_bind, ne_eq, Option.some.injEq, decide_eq_true_eq]
        by_cases h : a.y < b.y - 0.02
        · right
          intro hc
          linarith
        · left
          exact h
  · unfold chin_thrust_forward chin_tuck
    cases h152 : lm.get? 152 with
    | none => left; simp
    | some a =>
      simp only [Option.some_bind, ne_eq, Option.some.injEq, decide_eq_true_eq]
      by_cases h : a.z < -0.1
      · right
        intro hc
        linarith
      · left
        exact h
  · unfold head_tilt_left head_tilt_right
    cases h234 : lm.get? 234 with
    | none => left; simp
    | some a =>
      cases h454 : lm.get? 454 with
      | none => left; simp
      | some b =>
        simp only [Option.some_bind, ne_eq, Option.some.injEq, decide_eq_true_eq]
        by_cases h : a.y - b.y > 0.03
        · right
          intro hc
          linarith
        · left
          exact h

set_option maxRecDepth 8000 in
/-- C6 counterexample: on a frame whose brow gap (0.045) sits between the
compound threshold 0.03 and the atomic threshold 0.06, and whose lip gap
(0.045) sits between the compound threshold 0.04 and the atomic threshold
0.05, "brows raised and mouth open" is true although the conjunction of the
atomic predicates "raised left eyebrow" and "mouth open" is false: the
compound rule re-derives geometry with relaxed thresholds instead of
AND-ing the atomic rules. -/
theorem compound_relaxed_thresholds_cex :
    brows_raised_and_mouth_open betweenFrame = some true ∧
      ¬(raised_left_eyebrow betweenFrame = some true ∧
          mouth_open betweenFrame = some true) := by
  with_unfolding_all decide

/-- C6 (amended): only "brow furrow + frown" is exactly the AND of its atomic
rules; "brows raised and mouth open" and "mouth open + head tilt" use
relaxed thresholds (0.03 for the brow, 0.04 for the mouth), so for them the
conjunction of the atomic predicates implies the compound rule but not
conversely. -/
theorem compound_vs_atomic (lm : Frame) :
    (brow_furrow_frown lm = some true ↔
      (brow_furrow lm = some true ∧ frown lm = some true)) ∧
      (raised_left_eyebrow lm = some true ∧ mouth_open lm = some true →
        brows_raised_and_mouth_open lm = some true) ∧
      (mouth_open lm = some true ∧
          (head_tilt_left lm = some true ∨ head_tilt_right lm = some true) →
        mouth_open_head_tilt lm = some true) := by
  refine ⟨?_, ?_, ?_⟩
  · unfold brow_furrow_frown brow_furrow frown
    cases h65 : lm.get? 65 with
    | none => simp
    | some a =>
      cases h295 : lm.get? 295 with
      | none => simp
      | some b =>
        cases h61 : lm.get? 61 with
        | none => simp
        | some c =>
          cases h291 : lm.get? 291 with
          | none => simp
          | some d =>
            simp only [Option.some_bind, Option.some.injEq, Bool.and_eq_true,
              decide_eq_true_eq]
  · unfold raised_left_eyebrow mouth_open brows_raised_and_mouth_open
    cases h159 : lm.get? 159 with
    | none => simp
    | some a =>
      cases h65 : lm.get? 65 with
      | none => simp
      | some b =>
        cases h13 : lm.get? 13 with
        | none => simp
        | some c =>
          cases h14 : lm.get? 14 with
          | none => simp
          | some d =>
            simp only [Option.some_bind, Option.some.injEq, Bool.and_eq_true,
              decide_eq_true_eq]
            rintro ⟨h1, h2⟩
            constructor
            · linarith
            · linarith
  · unfold mouth_open head_tilt_left head_tilt_right mouth_open_head_tilt
    cases h13 : lm.get? 13 with
    | none => simp
    | some a =>
      cases h14 : lm.get? 14 with
      | none => simp
      | some b =>
        cases h234 : lm.get? 234 with
        | none => simp
        | some c =>
          cases h454 : lm.get? 454 with
          | none => simp
          | some d =>
            simp only [Option.some_bind, Option.some.injEq, Bool.and_eq_true,
              decide_eq_true_eq]
            rintro ⟨h1, h2⟩
            refine ⟨by linarith, ?_⟩
            rcases h2 with h | h
            · calc (0.03 : ℚ) < c.y - d.y := h
                _ ≤ |c.y - d.y| := le_abs_self _
            · calc (0.03 : ℚ) < d.y - c.y := h
                _ ≤ |c.y - d.y| := by rw [abs_sub_comm]; exact le_abs_self _

set_option maxRecDepth 8000 in
theorem compound_vs_atomic_witness :
    brow_furrow wideFrame = some true ∧ frown wideFrame = some true ∧
      brows_raised_and_mouth_open strongFrame = some true ∧
      mouth_open_head_tilt tiltFrame = some true :=
  ⟨((compound_vs_atomic wideFrame).1.mp (by with_unfolding_all decide)).1,
   ((compound_vs_atomic wideFrame).1.mp (by with_unfolding_all decide)).2,
   (compound_vs_atomic strongFrame).2.1
     ⟨by with_unfolding_all decide, by with_unfolding_all decide⟩,
   (compound_vs_atomic tiltFrame).2.2
     ⟨by with_unfolding_all decide, Or.inl (by with_unfolding_all decide)⟩⟩

/-- Modelled from the spec: the Temporal Significance Detector's scoring
function is not present under src (only its documentation and its UI
callers are). Per the spec it "computes a scalar distance between
corresponding landmark indices in the previous vs. current frame (e.g. mean
or sum of per-point Euclidean or per-axis displacement)"; modelled here as
the sum over corresponding points of the per-axis absolute displacement. -/
def significanceScore : Frame → Frame → ℚ
  | p :: ps, q :: qs =>
      (|q.x - p.x| + |q.y - p.y| + |q.z - p.z|) + significanceScore ps qs
  | _, _ => 0

/-- A copy of a frame with every point shifted by one fixed delta. -/
def shiftFrame (d : Point) (f : Frame) : Frame :=
  f.map fun p => ⟨p.x + d.x, p.y + d.y, p.z + d.z⟩

/-- The per-axis (L1) magnitude of a shift delta. -/
def l1mag (d : Point) : ℚ := |d.x| + |d.y| + |d.z|

theorem significanceScore_self (f : Frame) : significanceScore f f = 0 := by
  induction f with
  | nil => rfl
  | cons p ps ih =>
    unfold significanceScore
    rw [ih]
    simp

theorem significanceScore_shift (d : Point) (f : Frame) :
    significanceScore f (shiftFrame d f) = f.length * l1mag d := by
  induction f with
  | nil => simp [significanceScore, shiftFrame]
  | cons p ps ih =>
    unfold shiftFrame at ih ⊢
    simp only [List.map_cons]
    unfold significanceScore
    rw [ih]
    have hx : p.x + d.x - p.x = d.x := by ring
    have hy : p.y + d.y - p.y = d.y := by ring
    have hz : p.z + d.z - p.z = d.z := by ring
    rw [hx, hy, hz, List.length_cons]
    unfold l1mag
    push_cast
    ring

/-- C7: the significance score of a frame against itself is zero, and against
a copy of itself with every point shifted by a fixed delta it grows strictly
with the per-axis magnitude of the delta (for any non-empty frame). -/
theorem significance_identity_monotone (f : Frame) (d₁ d₂ : Point) :
    significanceScore f f = 0 ∧
      (0 < f.length → l1mag d₁ < l1mag d₂ →
        significanceScore f (shiftFrame d₁ f) <
          significanceScore f (shiftFrame d₂ f)) := by
  refine ⟨significanceScore_self f, ?_⟩
  intro hlen hmag
  rw [significanceScore_shift, significanceScore_shift]
  have hq : (0:ℚ) < f.length := by exact_mod_cast hlen
  exact mul_lt_mul_of_pos_left hmag hq

theorem significance_identity_monotone_witness :
    0 < ([⟨0, 0, 0⟩] : Frame).length ∧
      l1mag ⟨0, 0, 0⟩ < l1mag ⟨1, 0, 0⟩ ∧
      significanceScore [⟨0, 0, 0⟩] (shiftFrame ⟨0, 0, 0⟩ [⟨0, 0, 0⟩]) <
        significanceScore [⟨0, 0, 0⟩] (shiftFrame ⟨1, 0, 0⟩ [⟨0, 0, 0⟩]) :=
  ⟨by decide, by with_unfolding_all decide,
   (significance_identity_monotone [⟨0, 0, 0⟩] ⟨0, 0, 0⟩ ⟨1, 0, 0⟩).2
     (by decide) (by with_unfolding_all decide)⟩

set_option maxRecDepth 8000 in
/-- C1 counterexample: at the exact cooldown boundary the claim fails. With
"mouth open" last fired at time 0 and the current frame at time 5, the
elapsed time equals the 5-second window, so the claim ("at least the
cooldown window") demands an emission; the code tests
`(current_time - last_detect_time.get(name, 0)) > cooldown_seconds`
strictly and does not emit. -/
theorem cooldown_boundary_cex :
    mouth_open mouthFrame = some true ∧
      (5:ℚ) - ((firedState.last_detect_time "mouth open").getD 0) ≥ cooldown_seconds ∧
      "mouth open" ∉ (processFrame 5 [mouthFrame] firedState).2 := by
  with_unfolding_all decide

/-- C1 (amended): for every processed frame and every gesture rule, the
tracker emits the rule's name in that frame's `detected_now` list exactly
when the predicate evaluates to true on the frame's landmarks AND (the name
has never fired — is not in `last_detected` — OR the elapsed time since its
recorded last firing strictly exceeds the cooldown window, 5 seconds in
live mode); and on emission the rule's `last_detect_time` entry becomes the
current time. -/
theorem gesture_emission_iff (i : Fin GESTURES.length) (t : ℚ) (lm : Frame)
    (st : TrackerState) :
    ((GESTURES.get i).1 ∈ (processFrame t [lm] st).2 ↔
      ((GESTURES.get i).2 lm = some true ∧
        (st.last_detected (GESTURES.get i).1 = false ∨
          t - (st.last_detect_time (GESTURES.get i).1).getD 0 > cooldown_seconds))) ∧
      ((GESTURES.get i).1 ∈ (processFrame t [lm] st).2 →
        (processFrame t [lm] st).1.last_detect_time (GESTURES.get i).1 = some t) := by
  have hmem : ((GESTURES.get i).1, (GESTURES.get i).2) ∈ GESTURES :=
    List.get_mem GESTURES i.1 i.2
  obtain ⟨h1, h2, h3⟩ := foldl_gesture_char t lm (GESTURES.get i).1 GESTURES st []
  have htr : trigger GESTURES lm (GESTURES.get i).1 ↔ (GESTURES.get i).2 lm = some true :=
    trigger_unique gestures_names_nodup hmem lm
  have hok : cooldownOK t st (GESTURES.get i).1 = true ↔
      (st.last_detected (GESTURES.get i).1 = false ∨
        t - (st.last_detect_time (GESTURES.get i).1).getD 0 > cooldown_seconds) := by
    unfold cooldownOK
    simp [Bool.or_eq_true, Bool.not_eq_true', decide_eq_true_eq]
  constructor
  · show (GESTURES.get i).1 ∈ (GESTURES.foldl (processGesture t lm) (st, [])).2 ↔ _
    rw [h1, htr, hok]
    simp
  · intro hin
    have hin' : (GESTURES.get i).1 ∈ (GESTURES.foldl (processGesture t lm) (st, [])).2 := hin
    rw [h1] at hin'
    rcases hin' with h | h
    · exact absurd h (List.not_mem_nil _)
    · show ((GESTURES.foldl (processGesture t lm) (st, [])).1.last_detect_time
        (GESTURES.get i).1) = some t
      have := h2 h
      exact congrArg Prod.snd this

set_option maxRecDepth 8000 in
theorem gesture_emission_iff_witness :
    "mouth open" ∈ (processFrame 7 [mouthFrame] firedState).2 ∧
      (processFrame 7 [mouthFrame] firedState).1.last_detect_time "mouth open" =
        some 7 := by
  have h := gesture_emission_iff ⟨2, by decide⟩ 7 mouthFrame firedState
  have hin : "mouth open" ∈ (processFrame 7 [mouthFrame] firedState).2 :=
    h.1.mpr ⟨by with_unfolding_all decide, Or.inr (by with_unfolding_all decide)⟩
  exact ⟨hin, h.2 hin⟩

/-- C2: if a gesture rule is true and its cooldown is open on one frame, it
is emitted on that frame; and over any following frames whose capture times
stay within one cooldown window of that firing — whatever the predicate
does there, including going false and true again — the gesture appears in
no later `detected_now` list. A second emission therefore requires cooldown
expiry (which also covers the claim's weaker "expiry or false-then-re-true"
condition). -/
theorem gesture_no_reemit_within_cooldown (i : Fin GESTURES.length) (t₀ : ℚ)
    (lm₀ : Frame) (rest : List (ℚ × List Frame)) (st : TrackerState)
    (hpred : (GESTURES.get i).2 lm₀ = some true)
    (hok : cooldownOK t₀ st (GESTURES.get i).1 = true)
    (hwin : ∀ p ∈ rest, p.1 ≤ t₀ + cooldown_seconds) :
    (GESTURES.get i).1 ∈ (processFrame t₀ [lm₀] st).2 ∧
      ∀ out ∈ (runFrames (processFrame t₀ [lm₀] st).1 rest).2,
        (GESTURES.get i).1 ∉ out := by
  have hmem : ((GESTURES.get i).1, (GESTURES.get i).2) ∈ GESTURES :=
    List.get_mem GESTURES i.1 i.2
  obtain ⟨h1, h2, h3⟩ := foldl_gesture_char t₀ lm₀ (GESTURES.get i).1 GESTURES st []
  have htrig : trigger GESTURES lm₀ (GESTURES.get i).1 :=
    ⟨(GESTURES.get i).2, hmem, hpred⟩
  have hin : (GESTURES.get i).1 ∈ (processFrame t₀ [lm₀] st).2 := by
    show (GESTURES.get i).1 ∈ (GESTURES.foldl (processGesture t₀ lm₀) (st, [])).2
    rw [h1]
    exact Or.inr ⟨htrig, hok⟩
  have hkey : keyState (processFrame t₀ [lm₀] st).1 (GESTURES.get i).1 =
      (true, some t₀) := h2 ⟨htrig, hok⟩
  obtain ⟨hsup, -⟩ :=
    run_suppressed (GESTURES.get i).1 rest (processFrame t₀ [lm₀] st).1 t₀
      (congrArg Prod.fst hkey) (congrArg Prod.snd hkey) hwin
  exact ⟨hin, hsup⟩

set_option maxRecDepth 8000 in
theorem gesture_no_reemit_within_cooldown_witness :
    "mouth open" ∈ (processFrame 0 [mouthFrame] initState).2 ∧
      "mouth open" ∉
        (processFrame 3 [mouthFrame] (processFrame 0 [mouthFrame] initState).1).2 := by
  have h := gesture_no_reemit_within_cooldown ⟨2, by decide⟩ 0 mouthFrame
      [((3:ℚ), [mouthFrame])] initState (by with_unfolding_all decide)
      (by with_unfolding_all decide) (by with_unfolding_all decide)
  refine ⟨h.1, h.2 _ ?_⟩
  rw [runFrames_cons]
  exact List.mem_cons_self _ _

/-- C5: a gesture whose predicate is true on the frame but whose recorded
last firing is less than the cooldown window ago is dropped from
`detected_now`, and the frame leaves both its `last_detect_time` entry and
its `last_detected` membership untouched: the cooldown clock is measured
from the last firing and is not reset by a true observation. -/
theorem cooldown_drop_preserves_timestamp (i : Fin GESTURES.length) (t τ : ℚ)
    (lm : Frame) (st : TrackerState)
    (_hpred : (GESTURES.get i).2 lm = some true)
    (hdet : st.last_detected (GESTURES.get i).1 = true)
    (htime : st.last_detect_time (GESTURES.get i).1 = some τ)
    (hwin : t - τ < cooldown_seconds) :
    (GESTURES.get i).1 ∉ (processFrame t [lm] st).2 ∧
      (processFrame t [lm] st).1.last_detect_time (GESTURES.get i).1 = some τ ∧
      (processFrame t [lm] st).1.last_detected (GESTURES.get i).1 = true := by
  have hok : cooldownOK t st (GESTURES.get i).1 = false := by
    unfold cooldownOK
    rw [hdet, htime]
    simp only [Option.getD_some, Bool.not_true, Bool.false_or]
    rw [decide_eq_false]
    intro hgt
    linarith
  obtain ⟨hout, hkey⟩ :=
    processFrame_suppressed_frame t (GESTURES.get i).1 [lm] st hok
  refine ⟨hout, ?_, ?_⟩
  · rw [keyState_snd hkey, htime]
  · rw [keyState_fst hkey, hdet]

set_option maxRecDepth 8000 in
theorem cooldown_drop_preserves_timestamp_witness :
    "mouth open" ∉ (processFrame 3 [mouthFrame] firedState).2 ∧
      (processFrame 3 [mouthFrame] firedState).1.last_detect_time "mouth open" =
        some 0 ∧
      (processFrame 3 [mouthFrame] firedState).1.last_detected "mouth open" = true :=
  cooldown_drop_preserves_timestamp ⟨2, by decide⟩ 3 0 mouthFrame firedState
    (by with_unfolding_all decide) (by decide) (by decide)
    (by with_unfolding_all decide)

/-- C10: across any processed frame sequence, `last_detected` membership and
the key set of `last_detect_time` only grow, the time map's key set stays
inside `last_detected` (it starts so and both are written together), each
recorded last-fired time is nondecreasing provided the capture clock never
runs behind the recorded time, and — once a gesture is in `last_detected` —
a later emission is governed solely by the strict elapsed-time test. -/
theorem tracker_state_invariants (seq : List (ℚ × List Frame)) (st : TrackerState)
    (hsub : ∀ n, (st.last_detect_time n).isSome = true → st.last_detected n = true) :
    (∀ n, st.last_detected n = true →
      (runFrames st seq).1.last_detected n = true) ∧
    (∀ n, (st.last_detect_time n).isSome = true →
      ((runFrames st seq).1.last_detect_time n).isSome = true) ∧
    (∀ n, ((runFrames st seq).1.last_detect_time n).isSome = true →
      (runFrames st seq).1.last_detected n = true) ∧
    (∀ n τ τ', st.last_detect_time n = some τ →
      (runFrames st seq).1.last_detect_time n = some τ' →
      (∀ p ∈ seq, τ ≤ p.1) → τ ≤ τ') ∧
    (∀ (i : Fin GESTURES.length) (t : ℚ) (lm : Frame),
      (runFrames st seq).1.last_detected (GESTURES.get i).1 = true →
      ((GESTURES.get i).1 ∈ (processFrame t [lm] (runFrames st seq).1).2 ↔
        ((GESTURES.get i).2 lm = some true ∧
          t - ((runFrames st seq).1.last_detect_time (GESTURES.get i).1).getD 0 >
            cooldown_seconds))) := by
  refine ⟨?_, ?_, ?_, ?_, ?_⟩
  · intro n h
    rcases run_key_provenance n seq st with hk | ⟨p, -, hk⟩
    · have hfst : (runFrames st seq).1.last_detected n = st.last_detected n :=
        congrArg Prod.fst hk
      rw [hfst, h]
    · exact congrArg Prod.fst hk
  · intro n h
    rcases run_key_provenance n seq st with hk | ⟨p, -, hk⟩
    · have hsnd : (runFrames st seq).1.last_detect_time n = st.last_detect_time n :=
        congrArg Prod.snd hk
      rw [hsnd]
      exact h
    · have hsnd : (runFrames st seq).1.last_detect_time n = some p.1 :=
        congrArg Prod.snd hk
      rw [hsnd]
      rfl
  · intro n h
    rcases run_key_provenance n seq st with hk | ⟨p, -, hk⟩
    · have hsnd : (runFrames st seq).1.last_detect_time n = st.last_detect_time n :=
        congrArg Prod.snd hk
      have hfst : (runFrames st seq).1.last_detected n = st.last_detected n :=
        congrArg Prod.fst hk
      rw [hsnd] at h
      rw [hfst]
      exact hsub n h
    · exact congrArg Prod.fst hk
  · intro n τ τ' h1 h2 hcl
    rcases run_key_provenance n seq st with hk | ⟨p, hp, hk⟩
    · have hsnd : (runFrames st seq).1.last_detect_time n = st.last_detect_time n :=
        congrArg Prod.snd hk
      rw [hsnd, h1, Option.some.injEq] at h2
      rw [← h2]
    · have hsnd : (runFrames st seq).1.last_detect_time n = some p.1 :=
        congrArg Prod.snd hk
      rw [hsnd, Option.some.injEq] at h2
      rw [← h2]
      exact hcl p hp
  · intro i t lm hdet
    have hmem : ((GESTURES.get i).1, (GESTURES.get i).2) ∈ GESTURES :=
      List.get_mem GESTURES i.1 i.2
    obtain ⟨h1, -, -⟩ :=
      foldl_gesture_char t lm (GESTURES.get i).1 GESTURES (runFrames st seq).1 []
    have htr : trigger GESTURES lm (GESTURES.get i).1 ↔
        (GESTURES.get i).2 lm = some true :=
      trigger_unique gestures_names_nodup hmem lm
    have hok : cooldownOK t (runFrames st seq).1 (GESTURES.get i).1 = true ↔
        t - ((runFrames st seq).1.last_detect_time (GESTURES.get i).1).getD 0 >
          cooldown_seconds := by
      unfold cooldownOK
      rw [hdet]
      simp [decide_eq_true_eq]
    show (GESTURES.get i).1 ∈
        (GESTURES.foldl (processGesture t lm) ((runFrames st seq).1, [])).2 ↔ _
    rw [h1, htr, hok]
    simp

set_option maxRecDepth 8000 in
theorem tracker_state_invariants_witness :
    (runFrames firedState [((6:ℚ), [mouthFrame])]).1.last_detected "mouth open" =
        true ∧
      (0:ℚ) ≤ 6 := by
  have hsub : ∀ n, (firedState.last_detect_time n).isSome = true →
      firedState.last_detected n = true := by
    intro n h
    unfold firedState at h ⊢
    by_cases hb : (n == "mouth open") = true
    · simp [hb]
    · simp only [hb, if_false] at h
      simp at h
  have h := tracker_state_invariants [((6:ℚ), [mouthFrame])] firedState hsub
  refine ⟨h.1 "mouth open" (by decide), ?_⟩
  exact h.2.2.2.1 "mouth open" 0 6 (by decide)
    (by with_unfolding_all decide) (by with_unfolding_all decide)
